import Mathlib

/-!
Verification of the Terraform feature-lag tracker backend
(`tracker_backend.py`).  The definitions below are a shallow embedding of
the reconciliation core of that program: timestamp coercion
(`make_aware`), the `FeatureRecord` data model and its `to_dict`
projection, the matching loop of `process_features` (tokenization,
synonym normalization, overlap scoring, tiered thresholds), and the
merge/dedup/sort logic of `main`.  Network acquisition (feed fetchers,
GitHub API access) is out of scope; it only produces the record lists
these functions consume.
-/

namespace Tracker

/-- Model of a Python `datetime`: `clock` is the wall-clock reading in
seconds since the epoch, `tz` is the UTC offset in seconds when the value
is timezone-aware and `none` when it is naive (`tzinfo is None`). -/
structure Datetime where
  clock : Int
  tz : Option Int
deriving DecidableEq

/-- Absolute instant denoted by an aware datetime (wall clock minus UTC
offset); naive values are read with offset 0.  Python compares aware
datetimes by exactly this quantity. -/
def dtAbs (d : Datetime) : Int := d.clock - d.tz.getD 0

/-- Python `(a - b).days`: the `timedelta.days` field is the floor of the
difference in days (negative deltas round toward minus infinity). -/
def daysBetween (a b : Datetime) : Int := (dtAbs a - dtAbs b).fdiv 86400

/-- Embedding of `make_aware(dt)`: `None` becomes the current instant,
a naive datetime gets `tzinfo=timezone.utc` attached (same wall clock),
an aware datetime is returned unchanged.  `now` stands for
`datetime.now(timezone.utc)`. -/
def makeAware (now : Datetime) : Option Datetime → Datetime
  | none => now
  | some dt =>
    match dt.tz with
    | none => { dt with tz := some 0 }
    | some _ => dt

/-- Embedding of the `FeatureRecord` class state. -/
structure FeatureRecord where
  cloud : String
  service : String
  feature : String
  ga_date : Datetime
  link : String
  tf_status : String
  tf_version : String
  lag_days : Int
deriving DecidableEq

/-- Embedding of `FeatureRecord.__init__`: stores `make_aware(date)` and
the field defaults `tf_status = "Not Supported"`, `tf_version = "--"`,
`lag_days = 0`. -/
def mkFeatureRecord (now : Datetime) (cloud service feature : String)
    (date : Option Datetime) (link : String) : FeatureRecord :=
  { cloud := cloud
    service := service
    feature := feature
    ga_date := makeAware now date
    link := link
    tf_status := "Not Supported"
    tf_version := "--"
    lag_days := 0 }

/-- Python `s.lower()` restricted to its ASCII behaviour (character-wise
lower-casing). -/
def strLower (s : String) : String := String.mk (s.data.map Char.toLower)

/-- Python `s[:n]` on a string: the first `n` characters. -/
def strTake (s : String) (n : Nat) : String := String.mk (s.data.take n)

/-- Python `s[:-1]`: the string without its last character. -/
def strDropLast (s : String) : String := String.mk (s.data.dropLast)

/-- Python `s.endswith('s')`. -/
def endsWithS (s : String) : Bool := s.data.getLast? == some 's'

/-- Character class of `re.sub(r'[^a-zA-Z0-9]', '-', _)` (ASCII
alphanumeric is kept, everything else replaced by a hyphen). -/
def sanitizeChar (c : Char) : Char := if c.isAlphanum then c else '-'

/-- The `clean_name` computation in `to_dict`:
`re.sub(r'[^a-zA-Z0-9]', '-', self.feature[:25]).lower()`. -/
def sanitizeFeature (s : String) : String :=
  strLower (String.mk ((strTake s 25).data.map sanitizeChar))

/-- Civil date (year, month, day) from a count of days since 1970-01-01,
in the proleptic Gregorian calendar; this is what
`strftime("%Y-%m-%d")` renders for the datetime's wall-clock reading. -/
def civilFromDays (z0 : Int) : Int × Nat × Nat :=
  let z := z0 + 719468
  let era : Int := z.fdiv 146097
  let doe : Nat := (z - era * 146097).toNat
  let yoe : Nat := (doe - doe / 1460 + doe / 36524 - doe / 146096) / 365
  let doy : Nat := doe - (365 * yoe + yoe / 4 - yoe / 100)
  let mp : Nat := (5 * doy + 2) / 153
  let d : Nat := doy - (153 * mp + 2) / 5 + 1
  let m : Nat := if mp < 10 then mp + 3 else mp - 9
  (era * 400 + yoe + (if m ≤ 2 then 1 else 0), m, d)

/-- Zero-pad a number to a given width. -/
def padNum (width n : Nat) : String :=
  let s := toString n
  if s.length < width then
    String.mk (List.replicate (width - s.length) '0') ++ s
  else s

/-- Embedding of `ga_date.strftime("%Y-%m-%d")`: the calendar date of the
wall-clock reading, rendered as zero-padded `YYYY-MM-DD`. -/
def formatDate (d : Datetime) : String :=
  let c := civilFromDays (d.clock.fdiv 86400)
  padNum 4 c.1.toNat ++ "-" ++ padNum 2 c.2.1 ++ "-" ++ padNum 2 c.2.2

/-- The persisted output object produced by `FeatureRecord.to_dict`. -/
structure OutputRec where
  id : String
  cloud : String
  service : String
  feature : String
  link : String
  status : String
  version : String
  lag : Int
  date : String
deriving DecidableEq

/-- Embedding of `FeatureRecord.to_dict`. -/
def FeatureRecord.to_dict (f : FeatureRecord) : OutputRec :=
  let cleanName := sanitizeFeature f.feature
  { id := f.cloud ++ "-" ++ cleanName
    cloud := f.cloud
    service := strTake f.service 25
    feature := f.feature
    link := f.link
    status := f.tf_status
    version := f.tf_version
    lag := f.lag_days
    date := formatDate f.ga_date }

/-- A Terraform provider release as built by `fetch_tf_releases`:
version tag, aware publication date, lower-cased body text. -/
structure ReleaseRec where
  version : String
  date : Datetime
  body : String
deriving DecidableEq

/-- Does `needle` match `hay` from its first position on (list form of a
string prefix test)? -/
def charsMatchAt : List Char → List Char → Bool
  | [], _ => true
  | _ :: _, [] => false
  | a :: as, b :: bs => a == b && charsMatchAt as bs

/-- Does `needle` occur contiguously anywhere in `hay`? -/
def charsContain (needle : List Char) : List Char → Bool
  | [] => needle.isEmpty
  | c :: rest => charsMatchAt needle (c :: rest) || charsContain needle rest

/-- Python `needle in hay` on strings: contiguous substring test. -/
def strContains (hay needle : String) : Bool := charsContain needle.data hay.data

/-- The substring relation as a proposition: `needle` occurs contiguously
inside `hay`. -/
def OccursIn (needle hay : String) : Prop :=
  ∃ l r, hay.data = l ++ needle.data ++ r

/-- Python regex `\w` (ASCII part): alphanumeric or underscore. -/
def isWordChar (c : Char) : Bool := c.isAlphanum || c == '_'

/-- Worker for `re.findall(r'\w+', s)`: accumulates the current run of
word characters (reversed) and emits maximal runs. -/
def splitTokensAux : List Char → List Char → List String
  | cur, [] => if cur.isEmpty then [] else [String.mk cur.reverse]
  | cur, c :: rest =>
    if isWordChar c then splitTokensAux (c :: cur) rest
    else if cur.isEmpty then splitTokensAux [] rest
    else String.mk cur.reverse :: splitTokensAux [] rest

/-- Embedding of `re.findall(r'\w+', s)`: the maximal runs of word
characters in `s`, in order. -/
def findWordTokens (s : String) : List String := splitTokensAux [] s.data

/-- Python `set.add`: sets are modelled as duplicate-free lists, adding an
element that is already present does nothing. -/
def tokInsert (l : List String) (t : String) : List String :=
  if l.contains t then l else l ++ [t]

/-- The token-set computation of `process_features`: word tokens of the
lower-cased feature title, stop words removed, and for every retained
token ending in `s` also its naive singular (`t[:-1]`). -/
def computeTokens (stopWords : List String) (title : String) : List String :=
  (findWordTokens (strLower title)).foldl
    (fun acc t =>
      if stopWords.contains t then acc
      else
        let acc1 := tokInsert acc t
        if endsWithS t then tokInsert acc1 (strDropLast t) else acc1)
    []

/-- The global `SYNONYMS` table. -/
def synonyms : List (String × String) :=
  [("elastic kubernetes service", "eks"), ("kubernetes", "eks"),
   ("elastic compute cloud", "ec2"), ("ec2", "ec2"),
   ("simple storage service", "s3"), ("relational database service", "rds"),
   ("lambda", "lambda"), ("dynamodb", "dynamodb"),
   ("cloudwatch", "cloudwatch"), ("identity and access management", "iam"),
   ("bedrock", "bedrock"), ("sagemaker", "sagemaker"),
   ("vpc", "vpc"), ("compute engine", "compute"),
   ("kubernetes engine", "container"), ("cloud storage", "storage"),
   ("cloud sql", "sql"), ("cloud run", "cloudrun"),
   ("bigquery", "bigquery"), ("security command center", "scc"),
   ("vpc service controls", "vpcsc"), ("cloud functions", "cloudfunctions"),
   ("artifact registry", "artifactregistry"), ("kubernetes service", "kubernetes"),
   ("aks", "kubernetes"), ("cosmos db", "cosmosdb"),
   ("blob storage", "storage"), ("virtual machines", "virtual_machine"),
   ("virtual network", "virtual_network")]

/-- Python `SYNONYMS.get(s, s)`. -/
def synLookup (s : String) : String :=
  match synonyms.find? (fun p => p.1 == s) with
  | some p => p.2
  | none => s

/-- The per-cloud configuration fields the reconciliation core reads
(`stop_words` and the resource-name marker the source stores under the
key `resource_prefix`); feed URLs and repo names feed the out-of-scope
acquisition layer. -/
structure CloudConfig where
  stop_words : List String
  resourcePfx : String
deriving DecidableEq

/-- The `aws` entry of `CLOUD_CONFIG` (matching-relevant fields). -/
def awsConfig : CloudConfig :=
  { stop_words := ["amazon", "aws", "now", "supports", "available",
      "introducing", "general", "availability", "for", "with", "announcing",
      "new", "capabilities", "feature", "region", "launch"]
    resourcePfx := "aws_" }

/-- The `azure` entry of `CLOUD_CONFIG` (matching-relevant fields). -/
def azureConfig : CloudConfig :=
  { stop_words := ["azure", "microsoft", "public", "preview", "general",
      "availability", "now", "available", "support", "in", "generally",
      "updates", "update", "new", "announcing"]
    resourcePfx := "azurerm_" }

/-- The `gcp` entry of `CLOUD_CONFIG` (matching-relevant fields). -/
def gcpConfig : CloudConfig :=
  { stop_words := ["google", "cloud", "platform", "gcp", "beta", "ga",
      "release", "notes", "available", "support", "feature", "launch",
      "new", "announcing"]
    resourcePfx := "google_" }

/-- The overlap score of `process_features`:
`hits / len(tokens) if tokens else 0`, where a hit is a title token that
occurs as a substring of the release body. -/
def scoreOf (tokens : List String) (release : ReleaseRec) : ℚ :=
  let hits := (tokens.filter (fun t => strContains release.body t)).length
  if tokens.isEmpty then 0 else (hits : ℚ) / (tokens.length : ℚ)

/-- The tiered threshold of `process_features`:
`0.20 if resource_match else (0.25 if service_match else 0.30)`. -/
def thresholdOf (serviceToken resourceGuess : String) (release : ReleaseRec) : ℚ :=
  if strContains release.body resourceGuess then 0.20
  else if strContains release.body serviceToken then 0.25
  else 0.30

/-- The acceptance test of the matching loop: `score >= threshold`. -/
def acceptRelease (tokens : List String) (serviceToken resourceGuess : String)
    (release : ReleaseRec) : Bool :=
  decide (thresholdOf serviceToken resourceGuess release ≤ scoreOf tokens release)

/-- Integer reformulation of `acceptRelease` (cleared denominators), used
to evaluate the matcher on concrete inputs. -/
def acceptReleaseN (tokens : List String) (serviceToken resourceGuess : String)
    (release : ReleaseRec) : Bool :=
  let hits := (tokens.filter (fun t => strContains release.body t)).length
  let n := tokens.length
  if tokens.isEmpty then false
  else if strContains release.body resourceGuess then decide (n ≤ 5 * hits)
  else if strContains release.body serviceToken then decide (n ≤ 4 * hits)
  else decide (3 * n ≤ 10 * hits)

/-- The candidate filter of `process_features`:
`[r for r in releases if r['date'] >= feat.ga_date]`. -/
def validCandidates (feat : FeatureRecord) (releases : List ReleaseRec) :
    List ReleaseRec :=
  releases.filter (fun r => decide (dtAbs feat.ga_date ≤ dtAbs r.date))

/-- The per-feature token set (`tokens` in `process_features`). -/
def featTokens (config : CloudConfig) (feat : FeatureRecord) : List String :=
  computeTokens config.stop_words feat.feature

/-- The canonical service token
(`SYNONYMS.get(feat.service.lower(), feat.service.lower())`). -/
def featServiceToken (feat : FeatureRecord) : String :=
  synLookup (strLower feat.service)

/-- The resource-name guess (`resource_prefix + service_token` in the
source). -/
def featResourceGuess (config : CloudConfig) (feat : FeatureRecord) : String :=
  config.resourcePfx ++ featServiceToken feat

/-- The matching loop of `process_features`: walk the candidates in list
order, keep the first acceptable one (`best_match = release; break`),
`none` when no candidate is acceptable. -/
def matchFeature (config : CloudConfig) (feat : FeatureRecord)
    (candidates : List ReleaseRec) : Option ReleaseRec :=
  candidates.find?
    (acceptRelease (featTokens config feat) (featServiceToken feat)
      (featResourceGuess config feat))

/-- Stable insertion of a release into a date-ascending list (a release
is placed after every release that does not publish later). -/
def insertRelAsc (r : ReleaseRec) : List ReleaseRec → List ReleaseRec
  | [] => [r]
  | x :: xs =>
    if dtAbs x.date ≤ dtAbs r.date then x :: insertRelAsc r xs
    else r :: x :: xs

/-- Embedding of `releases.sort(key=lambda x: x['date'])`: stable sort by
publication date, ascending. -/
def sortReleasesByDate (l : List ReleaseRec) : List ReleaseRec :=
  l.foldl (fun acc r => insertRelAsc r acc) []

/-- The per-feature body of `process_features` (after the release list
has been sorted): filter candidates, run the matcher, then assign
status/version/lag and project through `to_dict`.  On a match the lag is
`lag if lag >= 0 else 0`; on no match it is `(now - ga_date).days`. -/
def processFeature (now : Datetime) (config : CloudConfig)
    (releases : List ReleaseRec) (feat : FeatureRecord) : OutputRec :=
  let valid := validCandidates feat releases
  let feat' :=
    match matchFeature config feat valid with
    | some best =>
      let lag := daysBetween best.date feat.ga_date
      { feat with
          tf_status := "Supported"
          tf_version := best.version
          lag_days := if 0 ≤ lag then lag else 0 }
    | none =>
      { feat with
          tf_status := "Not Supported"
          lag_days := daysBetween now feat.ga_date }
  feat'.to_dict

/-- Embedding of `process_features(features, releases, ...)`: with an
empty release list every feature is projected unchanged
(`return [f.to_dict() for f in features]`); otherwise the releases are
sorted by date once and every feature is matched against them. -/
def processFeatures (now : Datetime) (config : CloudConfig)
    (features : List FeatureRecord) (releases : List ReleaseRec) :
    List OutputRec :=
  if releases.isEmpty then features.map FeatureRecord.to_dict
  else features.map (processFeature now config (sortReleasesByDate releases))

/-- One assignment of the dict comprehension
`{item['feature']: item for item in all_records}`: if the feature title
is already a key its value is replaced in place, otherwise the record is
appended (Python dicts keep first-insertion order and overwrite values on
re-assignment). -/
def dictInsert : List OutputRec → OutputRec → List OutputRec
  | [], r => [r]
  | p :: ps, r =>
    if p.feature == r.feature then r :: ps else p :: dictInsert ps r

/-- Embedding of `list({item['feature']: item for item in l}.values())`:
fold every record into the title-keyed dict. -/
def dedupByFeature (l : List OutputRec) : List OutputRec :=
  l.foldl dictInsert []

/-- The merge step of `main`: concatenate existing and new records, then
deduplicate by feature title with last-write-wins. -/
def mergeRecords (existing newRecs : List OutputRec) : List OutputRec :=
  dedupByFeature (existing ++ newRecs)

/-- Stable insertion of a record into a date-descending list (a record is
placed after every record whose date is not smaller). -/
def insertRecDesc (r : OutputRec) : List OutputRec → List OutputRec
  | [] => [r]
  | x :: xs =>
    if r.date ≤ x.date then x :: insertRecDesc r xs
    else r :: x :: xs

/-- Embedding of `final_list.sort(key=lambda x: x['date'], reverse=True)`:
stable sort by the persisted `date` string, descending (the `YYYY-MM-DD`
format makes string order agree with date order). -/
def sortByDateDesc (l : List OutputRec) : List OutputRec :=
  l.foldl (fun acc r => insertRecDesc r acc) []

/-- Steps 5 of `main`: merge, deduplicate and re-sort the accumulated
dataset before persisting it. -/
def mergeAndSort (existing newRecs : List OutputRec) : List OutputRec :=
  sortByDateDesc (mergeRecords existing newRecs)

/-- Lookup of the (unique) merged record with a given feature title. -/
def findByFeat (l : List OutputRec) (t : String) : Option OutputRec :=
  l.find? (fun p => p.feature == t)

/-- The last record in a list carrying a given feature title. -/
def lastFeat : List OutputRec → String → Option OutputRec
  | [], _ => none
  | x :: xs, t =>
    match lastFeat xs t with
    | some r => some r
    | none => if x.feature == t then some x else none

/-- The backfill decision of `main`: `len(all_records) < 100`. -/
def runDeepScan (existingCount : Nat) : Bool := existingCount < 100

theorem charsMatchAt_iff (needle hay : List Char) :
    charsMatchAt needle hay = true ↔ ∃ r, hay = needle ++ r := by
  induction needle generalizing hay with
  | nil => simp [charsMatchAt]
  | cons a as ih =>
    cases hay with
    | nil => simp [charsMatchAt]
    | cons b bs =>
      simp only [charsMatchAt, Bool.and_eq_true, beq_iff_eq, ih, List.cons_append,
        List.cons.injEq]
      constructor
      · rintro ⟨rfl, r, rfl⟩; exact ⟨r, rfl, rfl⟩
      · rintro ⟨r, rfl, rfl⟩; exact ⟨rfl, r, rfl⟩

theorem charsContain_iff (needle hay : List Char) :
    charsContain needle hay = true ↔ ∃ l r, hay = l ++ needle ++ r := by
  induction hay with
  | nil =>
    simp only [charsContain, List.isEmpty_iff]
    constructor
    · rintro rfl; exact ⟨[], [], rfl⟩
    · rintro ⟨l, r, h⟩
      rcases List.append_eq_nil.mp h.symm with ⟨h1, h2⟩
      exact (List.append_eq_nil.mp h1).2
  | cons c rest ih =>
    simp only [charsContain, Bool.or_eq_true, charsMatchAt_iff, ih]
    constructor
    · rintro (⟨r, hr⟩ | ⟨l, r, hr⟩)
      · exact ⟨[], r, by simp [hr]⟩
      · exact ⟨c :: l, r, by simp [hr]⟩
    · rintro ⟨l, r, hr⟩
      cases l with
      | nil => exact Or.inl ⟨r, by simpa using hr⟩
      | cons x xs =>
        right
        simp only [List.cons_append, List.cons.injEq] at hr
        exact ⟨xs, r, hr.2⟩

theorem strContains_iff (hay needle : String) :
    strContains hay needle = true ↔ OccursIn needle hay :=
  charsContain_iff needle.data hay.data

instance (needle hay : String) : Decidable (OccursIn needle hay) :=
  decidable_of_iff _ (strContains_iff hay needle)

theorem ratDivLe (a b h n : ℕ) (hb : 0 < b) (hn : 0 < n) :
    ((a : ℚ) / b ≤ (h : ℚ) / n) ↔ a * n ≤ h * b := by
  rw [div_le_div_iff₀ (by exact_mod_cast hb) (by exact_mod_cast hn)]
  exact_mod_cast Iff.rfl

theorem acceptRelease_eq (tokens : List String) (st rg : String) (r : ReleaseRec) :
    acceptRelease tokens st rg r = acceptReleaseN tokens st rg r := by
  cases he : tokens.isEmpty with
  | true =>
    have h0 : tokens = [] := by simpa using he
    subst h0
    simp only [acceptRelease, acceptReleaseN, scoreOf, thresholdOf, List.isEmpty_nil,
      List.filter_nil, List.length_nil, if_true]
    split_ifs <;> (rw [decide_eq_false_iff_not] ; norm_num)
  | false =>
    have hn : 0 < tokens.length := by
      cases tokens with
      | nil => simp at he
      | cons a as => simp
    simp only [acceptRelease, acceptReleaseN, scoreOf, thresholdOf, he,
      Bool.false_eq_true, if_false]
    cases h1 : strContains r.body rg with
    | true =>
      simp only [h1, if_true]
      rw [decide_eq_decide,
        show (0.20 : ℚ) = ((1 : ℕ) : ℚ) / ((5 : ℕ) : ℚ) by norm_num,
        ratDivLe 1 5 _ _ (by norm_num) hn]
      omega
    | false =>
      simp only [h1, Bool.false_eq_true, if_false]
      cases h2 : strContains r.body st with
      | true =>
        simp only [h2, if_true]
        rw [decide_eq_decide,
          show (0.25 : ℚ) = ((1 : ℕ) : ℚ) / ((4 : ℕ) : ℚ) by norm_num,
          ratDivLe 1 4 _ _ (by norm_num) hn]
        omega
      | false =>
        simp only [h2, Bool.false_eq_true, if_false]
        rw [decide_eq_decide,
          show (0.30 : ℚ) = ((3 : ℕ) : ℚ) / ((10 : ℕ) : ℚ) by norm_num,
          ratDivLe 3 10 _ _ (by norm_num) hn]
        omega

theorem acceptRelease_funeq (tokens : List String) (st rg : String) :
    acceptRelease tokens st rg = acceptReleaseN tokens st rg :=
  funext fun r => acceptRelease_eq tokens st rg r

theorem matchFeature_eqN (config : CloudConfig) (feat : FeatureRecord)
    (candidates : List ReleaseRec) :
    matchFeature config feat candidates =
      candidates.find? (acceptReleaseN (featTokens config feat)
        (featServiceToken feat) (featResourceGuess config feat)) := by
  unfold matchFeature
  rw [acceptRelease_funeq]

theorem scoreOf_eval (tokens : List String) (r : ReleaseRec) (h n : ℕ)
    (hh : (tokens.filter (fun t => strContains r.body t)).length = h)
    (hn : tokens.length = n) (hne : tokens.isEmpty = false) :
    scoreOf tokens r = (h : ℚ) / n := by
  simp [scoreOf, hh, hn, hne]

end Tracker

namespace Tracker

theorem findByFeat_dictInsert (m : List OutputRec) (r : OutputRec) (t : String) :
    findByFeat (dictInsert m r) t =
      if r.feature = t then some r else findByFeat m t := by
  induction m with
  | nil =>
    by_cases h : r.feature = t
    · simp [dictInsert, findByFeat, h]
    · simp [dictInsert, findByFeat, h]
  | cons p ps ih =>
    by_cases hpr : p.feature = r.feature
    · rw [show dictInsert (p :: ps) r = r :: ps by simp [dictInsert, hpr]]
      by_cases hrt : r.feature = t
      · simp [findByFeat, hrt]
      · have hpt : ¬ (p.feature = t) := by rw [hpr]; exact hrt
        simp [findByFeat, hrt, hpt]
    · rw [show dictInsert (p :: ps) r = p :: dictInsert ps r by simp [dictInsert, hpr]]
      by_cases hpt : p.feature = t
      · have hrt : ¬ (r.feature = t) := by
          intro h; exact hpr (hpt.trans h.symm)
        simp [findByFeat, hpt, hrt]
      · simp only [findByFeat] at ih ⊢
        rw [List.find?_cons_of_neg _ (by simp [hpt]),
          List.find?_cons_of_neg _ (by simp [hpt]), ih]

theorem findByFeat_foldl (l : List OutputRec) (acc : List OutputRec) (t : String) :
    findByFeat (l.foldl dictInsert acc) t =
      match lastFeat l t with
      | some r => some r
      | none => findByFeat acc t := by
  induction l generalizing acc with
  | nil => rfl
  | cons x xs ih =>
    rw [List.foldl_cons, ih, lastFeat]
    cases h : lastFeat xs t with
    | some r => rfl
    | none =>
      rw [findByFeat_dictInsert]
      by_cases hxt : x.feature = t
      · simp [hxt]
      · simp [hxt]

theorem mem_feats_dictInsert (m : List OutputRec) (r : OutputRec) (x : String)
    (hx : x ∈ (dictInsert m r).map (fun p => p.feature)) :
    x = r.feature ∨ x ∈ m.map (fun p => p.feature) := by
  induction m with
  | nil => simpa [dictInsert] using hx
  | cons p ps ih =>
    by_cases hpr : p.feature = r.feature
    · rw [show dictInsert (p :: ps) r = r :: ps by simp [dictInsert, hpr]] at hx
      simp only [List.map_cons, List.mem_cons] at hx ⊢
      rcases hx with h | h
      · exact Or.inl h
      · exact Or.inr (Or.inr h)
    · rw [show dictInsert (p :: ps) r = p :: dictInsert ps r by simp [dictInsert, hpr]] at hx
      simp only [List.map_cons, List.mem_cons] at hx ⊢
      rcases hx with h | h
      · exact Or.inr (Or.inl h)
      · rcases ih h with h' | h'
        · exact Or.inl h'
        · exact Or.inr (Or.inr h')

theorem feats_nodup_dictInsert (m : List OutputRec) (r : OutputRec)
    (h : (m.map (fun p => p.feature)).Nodup) :
    ((dictInsert m r).map (fun p => p.feature)).Nodup := by
  induction m with
  | nil => simp [dictInsert]
  | cons p ps ih =>
    simp only [List.map_cons, List.nodup_cons] at h
    by_cases hpr : p.feature = r.feature
    · rw [show dictInsert (p :: ps) r = r :: ps by simp [dictInsert, hpr]]
      simp only [List.map_cons, List.nodup_cons]
      exact ⟨by rw [← hpr]; exact h.1, h.2⟩
    · rw [show dictInsert (p :: ps) r = p :: dictInsert ps r by simp [dictInsert, hpr]]
      simp only [List.map_cons, List.nodup_cons]
      refine ⟨?_, ih h.2⟩
      intro hmem
      rcases mem_feats_dictInsert ps r p.feature hmem with h' | h'
      · exact hpr h'
      · exact h.1 h'

theorem feats_nodup_foldl (l : List OutputRec) (acc : List OutputRec)
    (h : (acc.map (fun p => p.feature)).Nodup) :
    (((l.foldl dictInsert acc)).map (fun p => p.feature)).Nodup := by
  induction l generalizing acc with
  | nil => exact h
  | cons x xs ih => exact ih _ (feats_nodup_dictInsert acc x h)

theorem lastFeat_append (a b : List OutputRec) (t : String) :
    lastFeat (a ++ b) t =
      match lastFeat b t with
      | some r => some r
      | none => lastFeat a t := by
  induction a with
  | nil =>
    rw [List.nil_append]
    cases h : lastFeat b t with
    | some r => rfl
    | none => rfl
  | cons x xs ih =>
    rw [List.cons_append, lastFeat, ih, lastFeat]
    cases h : lastFeat b t with
    | some r => rfl
    | none => rfl

theorem lastFeat_isSome_of_mem (l : List OutputRec) (r : OutputRec) (t : String)
    (hr : r ∈ l) (ht : r.feature = t) : ∃ m, lastFeat l t = some m := by
  induction l with
  | nil => cases hr
  | cons x xs ih =>
    rw [lastFeat]
    rcases List.mem_cons.mp hr with h | h
    · cases hx : lastFeat xs t with
      | some m => exact ⟨m, rfl⟩
      | none =>
        subst h
        exact ⟨r, by simp [ht]⟩
    · rcases ih h with ⟨m, hm⟩
      rw [hm]
      exact ⟨m, rfl⟩

theorem mem_insertRecDesc (r : OutputRec) (l : List OutputRec) (y : OutputRec)
    (hy : y ∈ insertRecDesc r l) : y = r ∨ y ∈ l := by
  induction l with
  | nil => simpa [insertRecDesc] using hy
  | cons x xs ih =>
    rw [insertRecDesc] at hy
    by_cases h : r.date ≤ x.date
    · rw [if_pos h] at hy
      rcases List.mem_cons.mp hy with h' | h'
      · exact Or.inr (List.mem_cons.mpr (Or.inl h'))
      · rcases ih h' with h'' | h''
        · exact Or.inl h''
        · exact Or.inr (List.mem_cons.mpr (Or.inr h''))
    · rw [if_neg h] at hy
      rcases List.mem_cons.mp hy with h' | h'
      · exact Or.inl h'
      · exact Or.inr h'

theorem pairwise_insertRecDesc (r : OutputRec) (l : List OutputRec)
    (h : l.Pairwise (fun a b => b.date ≤ a.date)) :
    (insertRecDesc r l).Pairwise (fun a b => b.date ≤ a.date) := by
  induction l with
  | nil => simp [insertRecDesc]
  | cons x xs ih =>
    rw [List.pairwise_cons] at h
    rw [insertRecDesc]
    by_cases hle : r.date ≤ x.date
    · rw [if_pos hle]
      rw [List.pairwise_cons]
      refine ⟨?_, ih h.2⟩
      intro y hy
      rcases mem_insertRecDesc r xs y hy with h' | h'
      · rw [h']; exact hle
      · exact h.1 y h'
    · rw [if_neg hle]
      have hxr : x.date ≤ r.date := le_of_not_le hle
      rw [List.pairwise_cons]
      refine ⟨?_, List.pairwise_cons.mpr h⟩
      intro y hy
      rcases List.mem_cons.mp hy with h' | h'
      · rw [h']; exact hxr
      · exact le_trans (h.1 y h') hxr

theorem pairwise_sort_foldl (l acc : List OutputRec)
    (h : acc.Pairwise (fun a b => b.date ≤ a.date)) :
    (l.foldl (fun acc r => insertRecDesc r acc) acc).Pairwise
      (fun a b => b.date ≤ a.date) := by
  induction l generalizing acc with
  | nil => exact h
  | cons x xs ih => exact ih _ (pairwise_insertRecDesc x acc h)

theorem find?_append_of_none {α : Type} (p : α → Bool) (l1 l2 : List α)
    (h : ∀ a ∈ l1, p a = false) : (l1 ++ l2).find? p = l2.find? p := by
  rw [List.find?_append, List.find?_eq_none.mpr (by intro x hx; simp [h x hx]),
    Option.none_or]

/-- C1: For every feature record and every list of candidate releases
ordered by publication date ascending and already filtered to
`publishedAt >= announcedAt`, the matching loop of `process_features`
selects the first candidate in date order whose overlap score meets the
applicable tiered threshold and stops there, even when a later candidate
(here `r2`) has a strictly higher score that also meets its threshold. -/
theorem matcher_earliest_sufficient (config : CloudConfig) (feat : FeatureRecord)
    (pre mid post : List ReleaseRec) (r1 r2 : ReleaseRec)
    (hfiltered : ∀ r ∈ pre ++ r1 :: (mid ++ r2 :: post),
      dtAbs feat.ga_date ≤ dtAbs r.date)
    (hsorted : (pre ++ r1 :: (mid ++ r2 :: post)).Pairwise
      (fun a b => dtAbs a.date ≤ dtAbs b.date))
    (hpre : ∀ r ∈ pre,
      acceptRelease (featTokens config feat) (featServiceToken feat)
        (featResourceGuess config feat) r = false)
    (hr1 : acceptRelease (featTokens config feat) (featServiceToken feat)
      (featResourceGuess config feat) r1 = true)
    (hr2 : acceptRelease (featTokens config feat) (featServiceToken feat)
      (featResourceGuess config feat) r2 = true)
    (hscore : scoreOf (featTokens config feat) r1 <
      scoreOf (featTokens config feat) r2) :
    matchFeature config feat (pre ++ r1 :: (mid ++ r2 :: post)) = some r1 ∧
      r1 ≠ r2 := by
  constructor
  · unfold matchFeature
    rw [find?_append_of_none _ _ _ hpre, List.find?_cons_of_pos _ hr1]
  · intro h
    rw [h] at hscore
    exact lt_irrefl _ hscore

/-- Witness for C1: feature "alpha beta" (aws, service "svc"), candidates
with bodies "zzz" (rejected), "alpha aws_svc" (score 1/2, threshold 0.20,
accepted) and "alpha beta aws_svc" (score 1, also acceptable, later,
higher-scoring); the matcher returns the middle one. -/
theorem matcher_earliest_sufficient_witness :
    matchFeature awsConfig
      (mkFeatureRecord ⟨0, some 0⟩ "aws" "svc" "alpha beta" (some ⟨0, some 0⟩) "l")
      ([⟨"v0", ⟨0, some 0⟩, "zzz"⟩] ++ ⟨"v1", ⟨86400, some 0⟩, "alpha aws_svc"⟩ ::
        ([] ++ ⟨"v2", ⟨172800, some 0⟩, "alpha beta aws_svc"⟩ :: [])) =
      some ⟨"v1", ⟨86400, some 0⟩, "alpha aws_svc"⟩ ∧
    (⟨"v1", ⟨86400, some 0⟩, "alpha aws_svc"⟩ : ReleaseRec) ≠
      ⟨"v2", ⟨172800, some 0⟩, "alpha beta aws_svc"⟩ :=
  matcher_earliest_sufficient awsConfig
    (mkFeatureRecord ⟨0, some 0⟩ "aws" "svc" "alpha beta" (some ⟨0, some 0⟩) "l")
    [⟨"v0", ⟨0, some 0⟩, "zzz"⟩] [] []
    ⟨"v1", ⟨86400, some 0⟩, "alpha aws_svc"⟩
    ⟨"v2", ⟨172800, some 0⟩, "alpha beta aws_svc"⟩
    (by decide) (by decide)
    (by intro r hr
        rw [List.mem_singleton] at hr
        subst hr
        rw [acceptRelease_eq]
        decide)
    (by rw [acceptRelease_eq]; decide)
    (by rw [acceptRelease_eq]; decide)
    (by rw [scoreOf_eval _ _ 1 2 (by decide) (by decide) (by decide),
          scoreOf_eval _ _ 2 2 (by decide) (by decide) (by decide)]
        norm_num)

/-- C2: For every feature's token set, canonical service token `st` and
resource-name guess `rg`, the acceptance threshold applied to a candidate
is exactly 0.20 when the resource-name guess occurs as a substring of the
release body, otherwise 0.25 when the canonical service token occurs as a
substring of the body, and otherwise 0.30; the candidate is accepted iff
its overlap score is at least that threshold. -/
theorem threshold_tiering (tokens : List String) (st rg : String)
    (r : ReleaseRec) :
    acceptRelease tokens st rg r = true ↔
      (if OccursIn rg r.body then (0.20 : ℚ)
       else if OccursIn st r.body then 0.25
       else 0.30) ≤ scoreOf tokens r := by
  unfold acceptRelease thresholdOf
  rw [decide_eq_true_iff]
  by_cases h1 : OccursIn rg r.body
  · rw [if_pos ((strContains_iff _ _).mpr h1), if_pos h1]
  · rw [if_neg (fun hc => h1 ((strContains_iff _ _).mp hc)), if_neg h1]
    by_cases h2 : OccursIn st r.body
    · rw [if_pos ((strContains_iff _ _).mpr h2), if_pos h2]
    · rw [if_neg (fun hc => h2 ((strContains_iff _ _).mp hc)), if_neg h2]

/-- C3 counterexample: a feature announced 10 days before the
reconciliation-time `now`, reconciled against an empty release list,
comes out with `lag = 0` — not `lagDays = (now - announcedAt).days = 10`
as the claim states. -/
theorem empty_releases_lag_counterexample :
    (processFeatures ⟨864000, some 0⟩ awsConfig
        [mkFeatureRecord ⟨864000, some 0⟩ "aws" "svc" "some feature"
          (some ⟨0, some 0⟩) "l"] []).map (fun r => r.lag) = [0] ∧
    daysBetween ⟨864000, some 0⟩
      (mkFeatureRecord ⟨864000, some 0⟩ "aws" "svc" "some feature"
        (some ⟨0, some 0⟩) "l").ga_date = 10 ∧
    (0 : Int) ≠ 10 := by
  refine ⟨by decide, by decide, by decide⟩

/-- C3 (amended): reconciling feature records against an empty release
list does not raise and passes every record through `to_dict` unchanged;
records still carrying their construction defaults therefore come out
marked "Not Supported" with `lag = 0` (the default), not
`(now - announcedAt).days`. -/
theorem empty_releases_passthrough (now : Datetime) (config : CloudConfig)
    (features : List FeatureRecord)
    (hfresh : ∀ f ∈ features, f.tf_status = "Not Supported" ∧ f.lag_days = 0) :
    processFeatures now config features [] = features.map FeatureRecord.to_dict ∧
    ∀ r ∈ processFeatures now config features [],
      r.status = "Not Supported" ∧ r.lag = 0 := by
  have h0 : processFeatures now config features [] =
      features.map FeatureRecord.to_dict := by
    simp [processFeatures]
  refine ⟨h0, ?_⟩
  rw [h0]
  intro r hr
  rcases List.mem_map.mp hr with ⟨f, hf, rfl⟩
  rcases hfresh f hf with ⟨h1, h2⟩
  exact ⟨by simp [FeatureRecord.to_dict, h1], by simp [FeatureRecord.to_dict, h2]⟩

/-- Witness for C3 (amended): one freshly constructed feature against an
empty release list. -/
theorem empty_releases_passthrough_witness :
    processFeatures ⟨864000, some 0⟩ awsConfig
        [mkFeatureRecord ⟨864000, some 0⟩ "aws" "svc" "some feature"
          (some ⟨0, some 0⟩) "l"] [] =
      [mkFeatureRecord ⟨864000, some 0⟩ "aws" "svc" "some feature"
        (some ⟨0, some 0⟩) "l"].map FeatureRecord.to_dict ∧
    ∀ r ∈ processFeatures ⟨864000, some 0⟩ awsConfig
        [mkFeatureRecord ⟨864000, some 0⟩ "aws" "svc" "some feature"
          (some ⟨0, some 0⟩) "l"] [],
      r.status = "Not Supported" ∧ r.lag = 0 :=
  empty_releases_passthrough ⟨864000, some 0⟩ awsConfig
    [mkFeatureRecord ⟨864000, some 0⟩ "aws" "svc" "some feature"
      (some ⟨0, some 0⟩) "l"]
    (by decide)

/-- C4 (code bug): the unmatched branch of `process_features` stores
`(now - ga_date).days` without clamping, so a feature whose `announcedAt`
lies two days in the future of `now`, matched against a release list
whose only release predates the announcement, is persisted with
`lag = -2`, violating the `lag: integer >= 0` schema invariant. -/
theorem lag_can_be_negative :
    (processFeatures ⟨0, some 0⟩ awsConfig
        [mkFeatureRecord ⟨0, some 0⟩ "aws" "svc" "widget thing"
          (some ⟨172800, some 0⟩) "l"]
        [⟨"v1.0.0", ⟨86400, some 0⟩, ""⟩]).map (fun r => r.lag) = [-2] ∧
    ¬ (0 : Int) ≤ -2 := by
  refine ⟨by decide, by decide⟩

/-- C5: whenever the matching loop pairs a feature with a candidate
release `r`, the engine sets status to "Supported", the version to `r`'s
version string, and the lag to `max(0, (r.publishedAt - announcedAt).days)`;
the `max` clamps a negative day difference (candidate publishing before
the announcement) to 0 instead of treating it as an error. -/
theorem match_sets_fields (now : Datetime) (config : CloudConfig)
    (releases : List ReleaseRec) (feat : FeatureRecord) (r : ReleaseRec)
    (h : matchFeature config feat (validCandidates feat releases) = some r) :
    (processFeature now config releases feat).status = "Supported" ∧
    (processFeature now config releases feat).version = r.version ∧
    (processFeature now config releases feat).lag =
      max 0 (daysBetween r.date feat.ga_date) := by
  unfold processFeature
  dsimp only
  rw [h]
  refine ⟨rfl, rfl, ?_⟩
  show (if 0 ≤ daysBetween r.date feat.ga_date
        then daysBetween r.date feat.ga_date else 0) = _
  rw [max_def]

/-- Witness for C5: the spec's end-to-end scenario shape — an aws feature
"alpha beta" (service "widget") matched by a release nine days later whose
body contains the resource guess `aws_widget`; the output is Supported,
version "v5.0.0", lag `max 0 9`. -/
theorem match_sets_fields_witness :
    (processFeature ⟨0, some 0⟩ awsConfig
        [⟨"v5.0.0", ⟨777600, some 0⟩, "adds aws_widget support alpha beta"⟩]
        (mkFeatureRecord ⟨0, some 0⟩ "aws" "widget" "alpha beta"
          (some ⟨0, some 0⟩) "l")).status = "Supported" ∧
    (processFeature ⟨0, some 0⟩ awsConfig
        [⟨"v5.0.0", ⟨777600, some 0⟩, "adds aws_widget support alpha beta"⟩]
        (mkFeatureRecord ⟨0, some 0⟩ "aws" "widget" "alpha beta"
          (some ⟨0, some 0⟩) "l")).version =
      (⟨"v5.0.0", ⟨777600, some 0⟩,
        "adds aws_widget support alpha beta"⟩ : ReleaseRec).version ∧
    (processFeature ⟨0, some 0⟩ awsConfig
        [⟨"v5.0.0", ⟨777600, some 0⟩, "adds aws_widget support alpha beta"⟩]
        (mkFeatureRecord ⟨0, some 0⟩ "aws" "widget" "alpha beta"
          (some ⟨0, some 0⟩) "l")).lag =
      max 0 (daysBetween
        (⟨"v5.0.0", ⟨777600, some 0⟩,
          "adds aws_widget support alpha beta"⟩ : ReleaseRec).date
        (mkFeatureRecord ⟨0, some 0⟩ "aws" "widget" "alpha beta"
          (some ⟨0, some 0⟩) "l").ga_date) :=
  match_sets_fields ⟨0, some 0⟩ awsConfig
    [⟨"v5.0.0", ⟨777600, some 0⟩, "adds aws_widget support alpha beta"⟩]
    (mkFeatureRecord ⟨0, some 0⟩ "aws" "widget" "alpha beta"
      (some ⟨0, some 0⟩) "l")
    ⟨"v5.0.0", ⟨777600, some 0⟩, "adds aws_widget support alpha beta"⟩
    (by rw [matchFeature_eqN]; decide)

/-- C6 counterexample: `FeatureRecord.__init__` initialises `tf_version`
to the sentinel "--", not to the string "none" the claim names. -/
theorem sentinel_version_counterexample :
    (mkFeatureRecord ⟨0, some 0⟩ "aws" "svc" "f" (some ⟨0, some 0⟩)
      "l").tf_version = "--" ∧
    (mkFeatureRecord ⟨0, some 0⟩ "aws" "svc" "f" (some ⟨0, some 0⟩)
      "l").tf_version ≠ "none" := by
  refine ⟨rfl, by decide⟩

/-- C6 (amended): the matched-version field defaults to the sentinel
string "--" at construction, and a feature the matcher leaves unmatched
keeps its matched-version value — so a freshly constructed record still
holds the sentinel "--" after reconciliation. -/
theorem sentinel_version (now : Datetime) (config : CloudConfig)
    (releases : List ReleaseRec) (cloud service feature link : String)
    (date : Option Datetime) (feat : FeatureRecord)
    (hunmatched : matchFeature config feat (validCandidates feat releases) = none) :
    (mkFeatureRecord now cloud service feature date link).tf_version = "--" ∧
    (processFeature now config releases feat).version = feat.tf_version := by
  refine ⟨rfl, ?_⟩
  unfold processFeature
  dsimp only
  rw [hunmatched]
  rfl

/-- Witness for C6 (amended): an unmatched concrete feature (empty
candidate pool) keeps the "--" sentinel. -/
theorem sentinel_version_witness :
    (mkFeatureRecord ⟨0, some 0⟩ "aws" "svc" "f" (some ⟨0, some 0⟩)
      "l").tf_version = "--" ∧
    (processFeature ⟨0, some 0⟩ awsConfig []
        (mkFeatureRecord ⟨0, some 0⟩ "aws" "svc" "f" (some ⟨0, some 0⟩)
          "l")).version =
      (mkFeatureRecord ⟨0, some 0⟩ "aws" "svc" "f" (some ⟨0, some 0⟩)
        "l").tf_version :=
  sentinel_version ⟨0, some 0⟩ awsConfig [] "aws" "svc" "f" "l"
    (some ⟨0, some 0⟩)
    (mkFeatureRecord ⟨0, some 0⟩ "aws" "svc" "f" (some ⟨0, some 0⟩) "l")
    (by rw [matchFeature_eqN]; decide)

/-- C7: a naive timestamp supplied at construction is stored as an aware
timestamp with the same wall-clock value and UTC (offset 0) attached; an
already-aware timestamp is stored unchanged. -/
theorem announced_at_coercion (now : Datetime) (cloud service feature link : String)
    (d e : Datetime) (o : Int) (hd : d.tz = none) (he : e.tz = some o) :
    (mkFeatureRecord now cloud service feature (some d) link).ga_date =
      { clock := d.clock, tz := some 0 } ∧
    (mkFeatureRecord now cloud service feature (some e) link).ga_date = e := by
  constructor
  · obtain ⟨dc, dtz⟩ := d
    simp only at hd
    subst hd
    rfl
  · obtain ⟨ec, etz⟩ := e
    simp only at he
    subst he
    rfl

/-- Witness for C7: the naive reading ⟨5, none⟩ is stored as ⟨5, UTC⟩,
the aware reading ⟨7, +3600⟩ is stored as-is. -/
theorem announced_at_coercion_witness :
    (mkFeatureRecord ⟨0, some 0⟩ "aws" "svc" "f" (some ⟨5, none⟩)
      "l").ga_date = { clock := 5, tz := some 0 } ∧
    (mkFeatureRecord ⟨0, some 0⟩ "aws" "svc" "f" (some ⟨7, some 3600⟩)
      "l").ga_date = ⟨7, some 3600⟩ :=
  announced_at_coercion ⟨0, some 0⟩ "aws" "svc" "f" "l"
    ⟨5, none⟩ ⟨7, some 3600⟩ 3600 rfl rfl

/-- C8: the merge step yields at most one record per distinct feature
title (the mapped title list is duplicate-free), and when an existing and
a new record share a title the merged result holds the new record (the
last new record carrying that title — last-write-wins). -/
theorem merge_dedup_last_write_wins (ex nw : List OutputRec) (e n : OutputRec)
    (t : String) (he : e ∈ ex) (het : e.feature = t)
    (hn : lastFeat nw t = some n) :
    ((mergeRecords ex nw).map (fun p => p.feature)).Nodup ∧
    findByFeat (mergeRecords ex nw) t = some n := by
  constructor
  · exact feats_nodup_foldl _ _ (by simp)
  · unfold mergeRecords dedupByFeature
    rw [findByFeat_foldl, lastFeat_append, hn]

/-- Witness for C8: the spec's dedup-precedence example — an old
NotSupported record and a new Supported record for the same title "F"
merge to a single record, the new one. -/
theorem merge_dedup_last_write_wins_witness :
    ((mergeRecords
        [⟨"aws-f", "aws", "s", "F", "l", "Not Supported", "--", 0, "2024-01-01"⟩]
        [⟨"aws-f", "aws", "s", "F", "l", "Supported", "v1.0.0", 3, "2024-01-02"⟩]).map
      (fun p => p.feature)).Nodup ∧
    findByFeat
      (mergeRecords
        [⟨"aws-f", "aws", "s", "F", "l", "Not Supported", "--", 0, "2024-01-01"⟩]
        [⟨"aws-f", "aws", "s", "F", "l", "Supported", "v1.0.0", 3, "2024-01-02"⟩])
      "F" =
      some ⟨"aws-f", "aws", "s", "F", "l", "Supported", "v1.0.0", 3, "2024-01-02"⟩ :=
  merge_dedup_last_write_wins
    [⟨"aws-f", "aws", "s", "F", "l", "Not Supported", "--", 0, "2024-01-01"⟩]
    [⟨"aws-f", "aws", "s", "F", "l", "Supported", "v1.0.0", 3, "2024-01-02"⟩]
    ⟨"aws-f", "aws", "s", "F", "l", "Not Supported", "--", 0, "2024-01-01"⟩
    ⟨"aws-f", "aws", "s", "F", "l", "Supported", "v1.0.0", 3, "2024-01-02"⟩
    "F" (by decide) (by decide) (by decide)

/-- C9: the merged and persisted output is sorted with `date` keys
non-increasing from first to last record (newest first; order among equal
dates unspecified); the `date` strings are `strftime("%Y-%m-%d")`
renderings, whose lexicographic order is date order. -/
theorem merged_output_sorted (ex nw : List OutputRec) :
    (mergeAndSort ex nw).Pairwise (fun a b => b.date ≤ a.date) := by
  unfold mergeAndSort sortByDateDesc
  exact pairwise_sort_foldl _ _ (by simp)

/-- C10: merge deduplication keys on the feature title alone and ignores
the cloud field: two records with the same title but different clouds
leave exactly one record for that title in the merged output — the
later-positioned one. -/
theorem dedup_ignores_cloud (ex nw : List OutputRec) (r1 r2 : OutputRec)
    (h1 : r1 ∈ ex) (h2 : r2 ∈ nw) (ht : r1.feature = r2.feature)
    (hc : r1.cloud ≠ r2.cloud) :
    ((mergeRecords ex nw).filter (fun p => p.feature == r2.feature)).length = 1 ∧
    findByFeat (mergeRecords ex nw) r2.feature =
      lastFeat (ex ++ nw) r2.feature := by
  have hmem : r2 ∈ ex ++ nw := List.mem_append.mpr (Or.inr h2)
  obtain ⟨m, hm⟩ := lastFeat_isSome_of_mem (ex ++ nw) r2 r2.feature hmem rfl
  have hfind : findByFeat (mergeRecords ex nw) r2.feature = some m := by
    unfold mergeRecords dedupByFeature
    rw [findByFeat_foldl, hm]
  refine ⟨?_, by rw [hfind, hm]⟩
  have hnodup : ((mergeRecords ex nw).map (fun p => p.feature)).Nodup :=
    feats_nodup_foldl _ _ (by simp)
  have hfind' : (mergeRecords ex nw).find? (fun p => p.feature == r2.feature) =
      some m := hfind
  have hmmem : m ∈ mergeRecords ex nw := List.mem_of_find?_eq_some hfind'
  have hmfeat : m.feature = r2.feature := by
    have := List.find?_some hfind'
    simpa using this
  rw [← List.countP_eq_length_filter]
  have hcnt : List.countP (fun p => p.feature == r2.feature) (mergeRecords ex nw) =
      List.count r2.feature ((mergeRecords ex nw).map (fun p => p.feature)) := by
    rw [List.count, List.countP_map]
    rfl
  rw [hcnt]
  exact List.count_eq_one_of_mem hnodup
    (List.mem_map.mpr ⟨m, hmmem, hmfeat⟩)

/-- Witness for C10: an aws record and an azure record with the same
title "F" merge to a single record for "F" (the later one). -/
theorem dedup_ignores_cloud_witness :
    ((mergeRecords
        [⟨"aws-f", "aws", "s", "F", "l", "Not Supported", "--", 0, "2024-01-01"⟩]
        [⟨"azure-f", "azure", "s", "F", "l", "Supported", "v1", 3, "2024-01-02"⟩]).filter
      (fun p => p.feature ==
        (⟨"azure-f", "azure", "s", "F", "l", "Supported", "v1", 3,
          "2024-01-02"⟩ : OutputRec).feature)).length = 1 ∧
    findByFeat
      (mergeRecords
        [⟨"aws-f", "aws", "s", "F", "l", "Not Supported", "--", 0, "2024-01-01"⟩]
        [⟨"azure-f", "azure", "s", "F", "l", "Supported", "v1", 3, "2024-01-02"⟩])
      (⟨"azure-f", "azure", "s", "F", "l", "Supported", "v1", 3,
        "2024-01-02"⟩ : OutputRec).feature =
      lastFeat
        ([⟨"aws-f", "aws", "s", "F", "l", "Not Supported", "--", 0, "2024-01-01"⟩] ++
          [⟨"azure-f", "azure", "s", "F", "l", "Supported", "v1", 3, "2024-01-02"⟩])
        (⟨"azure-f", "azure", "s", "F", "l", "Supported", "v1", 3,
          "2024-01-02"⟩ : OutputRec).feature :=
  dedup_ignores_cloud
    [⟨"aws-f", "aws", "s", "F", "l", "Not Supported", "--", 0, "2024-01-01"⟩]
    [⟨"azure-f", "azure", "s", "F", "l", "Supported", "v1", 3, "2024-01-02"⟩]
    ⟨"aws-f", "aws", "s", "F", "l", "Not Supported", "--", 0, "2024-01-01"⟩
    ⟨"azure-f", "azure", "s", "F", "l", "Supported", "v1", 3, "2024-01-02"⟩
    (by decide) (by decide) (by decide) (by decide)

end Tracker
